import Mathlib

/-!
Verification of the draw-io collaborative-canvas server module
(src/server/src/lib.rs).

The module keeps four tables: Cursor (keyed by user identity),
CanvasPoint, CanvasState and SavedCanvasPoint (the latter three keyed by
auto-incremented integer ids).  Each reducer is embedded as a pure
function on an explicit database state; tables are lists of rows, the
auto-increment allocator of each table is an explicit counter, and the
f32 coordinates and sizes are modelled as exact rationals.  A reducer
whose insert would violate a primary-key constraint aborts its
transaction, which the embedding renders as the identity on the state.
-/

namespace DrawIo

/-- Opaque identifier of a connected user. -/
abbrev Identity := Nat

/-- Server timestamp supplied to every reducer. -/
abbrev Timestamp := Nat

/-- Cursor table row: tracks user cursor positions and brush settings. -/
structure Cursor where
  identity : Identity
  x : ℚ
  y : ℚ
  color : String
  size : ℚ
  last_updated : Timestamp
deriving DecidableEq

/-- CanvasPoint table row: one drawing point of the live canvas. -/
structure CanvasPoint where
  id : Nat
  identity : Identity
  x : ℚ
  y : ℚ
  color : String
  size : ℚ
  timestamp : Timestamp
deriving DecidableEq

/-- CanvasState table row: metadata of one saved canvas state. -/
structure CanvasState where
  id : Nat
  name : String
  created_by : Identity
  created_at : Timestamp
deriving DecidableEq

/-- SavedCanvasPoint table row: one point of a saved canvas state. -/
structure SavedCanvasPoint where
  id : Nat
  state_id : Nat
  x : ℚ
  y : ℚ
  color : String
  size : ℚ
deriving DecidableEq

/-- The whole database: the four tables plus the auto-increment
allocator of each id-keyed table (next id to hand out). -/
structure Db where
  cursor : List Cursor
  canvas_point : List CanvasPoint
  canvas_state : List CanvasState
  saved_canvas_point : List SavedCanvasPoint
  next_point_id : Nat
  next_state_id : Nat
  next_saved_point_id : Nat
deriving DecidableEq

/-- The empty database; auto-increment sequences start at 1. -/
def initDb : Db :=
  { cursor := [], canvas_point := [], canvas_state := [],
    saved_canvas_point := [], next_point_id := 1, next_state_id := 1,
    next_saved_point_id := 1 }

/-- Reducer identity_connected: inserts a Cursor row with default
position, color, size for the connecting identity.  The insert fails on
a duplicate primary key, aborting the transaction (state unchanged). -/
def identity_connected (db : Db) (sender : Identity) (now : Timestamp) : Db :=
  if (db.cursor.find? (fun c => c.identity == sender)).isSome then
    db
  else
    { db with cursor := db.cursor ++
        [{ identity := sender, x := 0, y := 0, color := "#000000",
           size := 3, last_updated := now }] }

/-- Reducer identity_disconnected: removes the Cursor row of the
disconnecting identity if present, otherwise does nothing. -/
def identity_disconnected (db : Db) (sender : Identity) : Db :=
  match db.cursor.find? (fun c => c.identity == sender) with
  | none => db
  | some c => { db with cursor := db.cursor.erase c }

/-- Reducer update_cursor: if a Cursor row for the sender exists,
replaces its position, color, size and last_updated (primary-key update
keeps the identity); otherwise does nothing. -/
def update_cursor (db : Db) (sender : Identity) (x y : ℚ) (color : String)
    (size : ℚ) (now : Timestamp) : Db :=
  match db.cursor.find? (fun c => c.identity == sender) with
  | none => db
  | some c =>
    { db with cursor := db.cursor.map (fun c2 =>
        if c2.identity == c.identity then
          { identity := c.identity, x := x, y := y, color := color,
            size := size, last_updated := now }
        else c2) }

/-- Reducer add_drawing_point: inserts a CanvasPoint with a freshly
allocated id and the given attributes. -/
def add_drawing_point (db : Db) (sender : Identity) (x y : ℚ)
    (color : String) (size : ℚ) (now : Timestamp) : Db :=
  { db with
    canvas_point := db.canvas_point ++
      [{ id := db.next_point_id, identity := sender, x := x, y := y,
         color := color, size := size, timestamp := now }],
    next_point_id := db.next_point_id + 1 }

/-- The filter predicate of erase_points: the eraser circle and the
point's own brush circle overlap, compared on squared distances. -/
def erasesPoint (x y radius : ℚ) (p : CanvasPoint) : Bool :=
  let dx := p.x - x
  let dy := p.y - y
  let dist_sq := dx * dx + dy * dy
  let combined_radius := radius + p.size
  decide (dist_sq ≤ combined_radius * combined_radius)

/-- Reducer erase_points: deletes every CanvasPoint matching the
erasesPoint predicate, keeping the rest. -/
def erase_points (db : Db) (x y radius : ℚ) : Db :=
  { db with canvas_point :=
      db.canvas_point.filter (fun p => !(erasesPoint x y radius p)) }

/-- The loop body of save_canvas_state: one SavedCanvasPoint per live
CanvasPoint, tagged with the new state id, ids allocated sequentially
from the SavedCanvasPoint counter. -/
def snapshotPoints (sid : Nat) : Nat → List CanvasPoint → List SavedCanvasPoint
  | _, [] => []
  | next, p :: ps =>
    { id := next, state_id := sid, x := p.x, y := p.y, color := p.color,
      size := p.size } :: snapshotPoints sid (next + 1) ps

/-- Reducer save_canvas_state: inserts a CanvasState metadata row with a
freshly allocated id, then one SavedCanvasPoint per current CanvasPoint. -/
def save_canvas_state (db : Db) (sender : Identity) (now : Timestamp)
    (name : String) : Db :=
  let state : CanvasState :=
    { id := db.next_state_id, name := name, created_by := sender,
      created_at := now }
  { db with
    canvas_state := db.canvas_state ++ [state],
    saved_canvas_point := db.saved_canvas_point ++
      snapshotPoints state.id db.next_saved_point_id db.canvas_point,
    next_state_id := db.next_state_id + 1,
    next_saved_point_id := db.next_saved_point_id + db.canvas_point.length }

/-- Reducer clear_canvas: deletes every CanvasPoint row. -/
def clear_canvas (db : Db) : Db :=
  { db with canvas_point := [] }

/-- The loop body of load_canvas_state: recreates each saved point as a
live CanvasPoint with a sequentially allocated fresh id, the loader as
owner and the load timestamp. -/
def restorePoints (sender : Identity) (now : Timestamp) :
    Nat → List SavedCanvasPoint → List CanvasPoint
  | _, [] => []
  | next, sp :: sps =>
    { id := next, identity := sender, x := sp.x, y := sp.y,
      color := sp.color, size := sp.size, timestamp := now } ::
      restorePoints sender now (next + 1) sps

/-- Reducer load_canvas_state: first clears the live canvas, then, if a
CanvasState with the given id exists, recreates every SavedCanvasPoint
tagged with that id as a live CanvasPoint owned by the loader. -/
def load_canvas_state (db : Db) (sender : Identity) (now : Timestamp)
    (state_id : Nat) : Db :=
  match db.canvas_state.find? (fun st => st.id == state_id) with
  | none => { db with canvas_point := [] }
  | some _ =>
    let saved := db.saved_canvas_point.filter (fun p => p.state_id == state_id)
    { db with
      canvas_point := restorePoints sender now db.next_point_id saved,
      next_point_id := db.next_point_id + saved.length }

/-- Reducer delete_canvas_state: if a CanvasState with the given id
exists and was created by the sender, deletes all its SavedCanvasPoint
rows and then the CanvasState row itself; otherwise does nothing. -/
def delete_canvas_state (db : Db) (sender : Identity) (state_id : Nat) : Db :=
  match db.canvas_state.find? (fun st => st.id == state_id) with
  | none => db
  | some st =>
    if st.created_by == sender then
      { db with
        saved_canvas_point :=
          db.saved_canvas_point.filter (fun p => !(p.state_id == state_id)),
        canvas_state := db.canvas_state.erase st }
    else db

/-- The per-point attributes the round-trip claims compare: position,
color and size (ids, owner and timestamp excluded). -/
def pointAttrs (p : CanvasPoint) : ℚ × ℚ × String × ℚ :=
  (p.x, p.y, p.color, p.size)

/-- The attributes of a saved point, in the same shape as pointAttrs. -/
def savedAttrs (sp : SavedCanvasPoint) : ℚ × ℚ × String × ℚ :=
  (sp.x, sp.y, sp.color, sp.size)

/-- Well-formedness of a database: every live id is below its table's
allocator counter, and every saved point references an already
allocated state id. -/
def WF (db : Db) : Prop :=
  (∀ p ∈ db.canvas_point, p.id < db.next_point_id) ∧
  (∀ st ∈ db.canvas_state, st.id < db.next_state_id) ∧
  (∀ sp ∈ db.saved_canvas_point,
    sp.id < db.next_saved_point_id ∧ sp.state_id < db.next_state_id)

/-- A small concrete database used by the witness theorems: one
connected cursor, one live point, one saved state with one saved point,
all owned by identity 4. -/
def exDb : Db :=
  { cursor := [{ identity := 4, x := 1, y := 1, color := "#000000",
                 size := 3, last_updated := 5 }],
    canvas_point := [{ id := 1, identity := 4, x := 2, y := 2,
                       color := "#ff0000", size := 1, timestamp := 5 }],
    canvas_state := [{ id := 1, name := "a", created_by := 4,
                       created_at := 5 }],
    saved_canvas_point := [{ id := 1, state_id := 1, x := 2, y := 3,
                             color := "#00ff00", size := 1 }],
    next_point_id := 2, next_state_id := 2, next_saved_point_id := 2 }

/-- Example point sitting exactly on the erase boundary: distance 0
from (10,10), size 2, so an eraser of radius 0 at (10,10) removes it. -/
def exNearPoint : CanvasPoint :=
  { id := 1, identity := 4, x := 10, y := 10, color := "#ff0000",
    size := 2, timestamp := 5 }

/-- Example point outside the erase bound: distance 3 from (10,10),
size 0, so an eraser of radius 2 at (10,10) leaves it alone. -/
def exFarPoint : CanvasPoint :=
  { id := 2, identity := 4, x := 13, y := 10, color := "#00ff00",
    size := 0, timestamp := 5 }

/-- Concrete database holding the two example points. -/
def exEraseDb : Db :=
  { initDb with
    canvas_point := [exNearPoint, exFarPoint],
    next_point_id := 3 }

/-- The round-trip of the spec: save the canvas under a name, clear it,
then load the state id the save allocated. -/
def saveClearLoad (db : Db) (name : String) (saver loader : Identity)
    (t1 t2 : Timestamp) : Db :=
  load_canvas_state (clear_canvas (save_canvas_state db saver t1 name))
    loader t2 db.next_state_id

/-- One client operation, covering every reducer of the module. -/
inductive Op where
  | connect (sender : Identity) (now : Timestamp)
  | disconnect (sender : Identity)
  | updateCursor (sender : Identity) (x y : ℚ) (color : String) (size : ℚ)
      (now : Timestamp)
  | addPoint (sender : Identity) (x y : ℚ) (color : String) (size : ℚ)
      (now : Timestamp)
  | erasePts (x y radius : ℚ)
  | clearAll
  | save (sender : Identity) (now : Timestamp) (name : String)
  | load (sender : Identity) (now : Timestamp) (state_id : Nat)
  | delete (sender : Identity) (state_id : Nat)

/-- Dispatch of one operation to its reducer. -/
def applyOp (db : Db) : Op → Db
  | .connect s t => identity_connected db s t
  | .disconnect s => identity_disconnected db s
  | .updateCursor s x y c sz t => update_cursor db s x y c sz t
  | .addPoint s x y c sz t => add_drawing_point db s x y c sz t
  | .erasePts x y r => erase_points db x y r
  | .clearAll => clear_canvas db
  | .save s t n => save_canvas_state db s t n
  | .load s t sid => load_canvas_state db s t sid
  | .delete s sid => delete_canvas_state db s sid

/-- Attributes of the points produced by restorePoints: they are the
attributes of the saved points, in order. -/
theorem restorePoints_map_attrs (s : Identity) (t : Timestamp) (n : Nat)
    (l : List SavedCanvasPoint) :
    (restorePoints s t n l).map pointAttrs = l.map savedAttrs := by
  induction l generalizing n with
  | nil => rfl
  | cons sp sps ih => simp [restorePoints, pointAttrs, savedAttrs, ih]

/-- Attributes of the points produced by snapshotPoints: they are the
attributes of the live points, in order. -/
theorem snapshotPoints_map_attrs (sid : Nat) (n : Nat) (l : List CanvasPoint) :
    (snapshotPoints sid n l).map savedAttrs = l.map pointAttrs := by
  induction l generalizing n with
  | nil => rfl
  | cons p ps ih => simp [snapshotPoints, pointAttrs, savedAttrs, ih]

/-- Every point produced by restorePoints carries the loader identity,
the load timestamp, and an id in the freshly allocated range. -/
theorem mem_restorePoints {s : Identity} {t : Timestamp} {n : Nat}
    {l : List SavedCanvasPoint} {p : CanvasPoint}
    (h : p ∈ restorePoints s t n l) :
    p.identity = s ∧ p.timestamp = t ∧ n ≤ p.id ∧ p.id < n + l.length := by
  induction l generalizing n with
  | nil => cases h
  | cons sp sps ih =>
    simp only [restorePoints, List.mem_cons] at h
    rcases h with h | h
    · subst h
      refine ⟨rfl, rfl, Nat.le_refl n, ?_⟩
      simp
    · obtain ⟨h1, h2, h3, h4⟩ := ih h
      refine ⟨h1, h2, by omega, ?_⟩
      simp only [List.length_cons]
      omega

/-- Every row produced by snapshotPoints is tagged with the new state id
and carries an id in the freshly allocated range. -/
theorem mem_snapshotPoints {sid : Nat} {n : Nat} {l : List CanvasPoint}
    {sp : SavedCanvasPoint} (h : sp ∈ snapshotPoints sid n l) :
    sp.state_id = sid ∧ n ≤ sp.id ∧ sp.id < n + l.length := by
  induction l generalizing n with
  | nil => cases h
  | cons p ps ih =>
    simp only [snapshotPoints, List.mem_cons] at h
    rcases h with h | h
    · subst h
      refine ⟨rfl, Nat.le_refl n, ?_⟩
      simp
    · obtain ⟨h1, h2, h3⟩ := ih h
      refine ⟨h1, by omega, ?_⟩
      simp only [List.length_cons]
      omega

/-- C1: a CanvasPoint p survives erase(x, y, radius) iff it was in the
table before and the squared distance from (x, y) to p exceeds the
square of radius + p.size; equivalently p is deleted iff
(p.x-x)^2 + (p.y-y)^2 <= (radius + p.size)^2, equality included, and
every point outside the bound remains unchanged. -/
theorem erase_points_spec (db : Db) (x y radius : ℚ) (p : CanvasPoint) :
    p ∈ (erase_points db x y radius).canvas_point ↔
      p ∈ db.canvas_point ∧
        ¬ ((p.x - x) * (p.x - x) + (p.y - y) * (p.y - y) ≤
            (radius + p.size) * (radius + p.size)) := by
  simp [erase_points, List.mem_filter, erasesPoint]

/-- C3: loading a state id for which no CanvasState row exists still
clears the live canvas and restores nothing, leaving the CanvasPoint
table empty. -/
theorem load_missing_state_clears (db : Db) (sender : Identity)
    (now : Timestamp) (sid : Nat)
    (h : ∀ st ∈ db.canvas_state, st.id ≠ sid) :
    (load_canvas_state db sender now sid).canvas_point = [] := by
  have hfind : db.canvas_state.find? (fun st => st.id == sid) = none := by
    simp only [List.find?_eq_none]
    intro st hst
    simpa using h st hst
  simp [load_canvas_state, hfind]

/-- C3 witness at a concrete database holding one live point, one
cursor and one saved state; loading the unused id 7 empties the canvas. -/
theorem load_missing_state_clears_witness :
    (load_canvas_state exDb 9 6 7).canvas_point = [] :=
  load_missing_state_clears exDb 9 6 7 (by decide)

/-- C4: deleting a state that does not exist, or exists but was created
by a different identity, is a silent no-op: the whole database is
unchanged. -/
theorem delete_nonowner_noop (db : Db) (sender : Identity) (sid : Nat)
    (h : ∀ st ∈ db.canvas_state, st.id = sid → st.created_by ≠ sender) :
    delete_canvas_state db sender sid = db := by
  unfold delete_canvas_state
  cases hfind : db.canvas_state.find? (fun st => st.id == sid) with
  | none => rfl
  | some st =>
    have hid : st.id = sid := by simpa using List.find?_some hfind
    have hmem : st ∈ db.canvas_state := List.mem_of_find?_eq_some hfind
    have hcb : st.created_by ≠ sender := h st hmem hid
    simp [hcb]

/-- C4 witness: identity 9 deleting state 1, which was created by
identity 4, leaves the concrete database unchanged; so does deleting
the absent state 7. -/
theorem delete_nonowner_noop_witness :
    delete_canvas_state exDb 9 1 = exDb ∧ delete_canvas_state exDb 4 7 = exDb :=
  ⟨delete_nonowner_noop exDb 9 1 (by decide),
   delete_nonowner_noop exDb 4 7 (by decide)⟩

/-- C6: update_cursor fully overwrites the x, y, color, size and
last_updated fields of the sender's Cursor row, keeping the identity
key, when such a row exists; when no row for the sender exists the
database is unchanged. -/
theorem update_cursor_spec (db : Db) (sender : Identity) (x y : ℚ)
    (color : String) (size : ℚ) (now : Timestamp) :
    ((∃ c ∈ db.cursor, c.identity = sender) →
      (update_cursor db sender x y color size now).cursor =
        db.cursor.map (fun c =>
          if c.identity = sender then
            { identity := sender, x := x, y := y, color := color,
              size := size, last_updated := now }
          else c)) ∧
    ((∀ c ∈ db.cursor, c.identity ≠ sender) →
      update_cursor db sender x y color size now = db) := by
  constructor
  · rintro ⟨c, hc, hcid⟩
    unfold update_cursor
    cases hfind : db.cursor.find? (fun c => c.identity == sender) with
    | none =>
      rw [List.find?_eq_none] at hfind
      exact absurd (by simpa using hcid) (hfind c hc)
    | some c0 =>
      have h0 : c0.identity = sender := by simpa using List.find?_some hfind
      simp only [h0]
      apply List.map_congr_left
      intro a _
      by_cases ha : a.identity = sender <;> simp [ha]
  · intro h
    unfold update_cursor
    have hfind : db.cursor.find? (fun c => c.identity == sender) = none := by
      simp only [List.find?_eq_none]
      intro c hc
      simpa using h c hc
    simp [hfind]

/-- C6 witness: updating the cursor of the connected identity 4
overwrites its row, and updating the cursor of the absent identity 9
changes nothing, at the concrete example database. -/
theorem update_cursor_spec_witness :
    (update_cursor exDb 4 7 8 "#0000ff" 2 6).cursor =
      [{ identity := 4, x := 7, y := 8, color := "#0000ff", size := 2,
         last_updated := 6 }] ∧
    update_cursor exDb 9 7 8 "#0000ff" 2 6 = exDb := by
  constructor
  · have h := (update_cursor_spec exDb 4 7 8 "#0000ff" 2 6).1
      ⟨{ identity := 4, x := 1, y := 1, color := "#000000", size := 3,
         last_updated := 5 }, by decide, rfl⟩
    rw [h]
    decide
  · exact (update_cursor_spec exDb 9 7 8 "#0000ff" 2 6).2 (by decide)

/-- C7: for an identity with no Cursor row, connecting creates exactly
one Cursor row for it, at position (0,0) with color "#000000", size 3.0
and last_updated now; the matching disconnect leaves zero rows for it;
and disconnecting while the row is absent is a no-op. -/
theorem connect_disconnect_spec (db : Db) (sender : Identity)
    (now : Timestamp) (h : ∀ c ∈ db.cursor, c.identity ≠ sender) :
    (identity_connected db sender now).cursor.filter
        (fun c => c.identity == sender) =
      [{ identity := sender, x := 0, y := 0, color := "#000000", size := 3,
         last_updated := now }] ∧
    (identity_disconnected (identity_connected db sender now)
        sender).cursor.filter (fun c => c.identity == sender) = [] ∧
    identity_disconnected db sender = db := by
  have hfind : db.cursor.find? (fun c => c.identity == sender) = none := by
    simp only [List.find?_eq_none]
    intro c hc
    simpa using h c hc
  have hfilter : db.cursor.filter (fun c => c.identity == sender) = [] := by
    simp only [List.filter_eq_nil_iff]
    intro c hc
    simpa using h c hc
  have hconn : (identity_connected db sender now).cursor =
      db.cursor ++
        [{ identity := sender, x := 0, y := 0, color := "#000000",
           size := 3, last_updated := now }] := by
    simp [identity_connected, hfind]
  refine ⟨?_, ?_, ?_⟩
  · rw [hconn, List.filter_append, hfilter]
    simp
  · have hnotmem : ({ identity := sender, x := 0, y := 0,
                      color := "#000000", size := 3,
                      last_updated := now } : Cursor) ∉ db.cursor :=
      fun hmem => h _ hmem rfl
    have hfind2 : (identity_connected db sender now).cursor.find?
        (fun c => c.identity == sender) =
      some { identity := sender, x := 0, y := 0, color := "#000000",
             size := 3, last_updated := now } := by
      rw [hconn]
      simp [List.find?_append, hfind]
    simp only [identity_disconnected, hfind2]
    rw [hconn, List.erase_append_right _ hnotmem]
    simp [List.filter_append, hfilter]
  · simp [identity_disconnected, hfind]

/-- C7 witness: identity 9 is not connected in the example database;
connecting it creates its default row, disconnecting removes it again,
and a lone disconnect changes nothing. -/
theorem connect_disconnect_spec_witness :
    (identity_connected exDb 9 6).cursor.filter
        (fun c => c.identity == 9) =
      [{ identity := 9, x := 0, y := 0, color := "#000000", size := 3,
         last_updated := 6 }] ∧
    (identity_disconnected (identity_connected exDb 9 6) 9).cursor.filter
        (fun c => c.identity == 9) = [] ∧
    identity_disconnected exDb 9 = exDb :=
  connect_disconnect_spec exDb 9 6 (by decide)

/-- C8: connecting an identity that already has a Cursor row aborts the
insert, so the whole database is unchanged. -/
theorem connect_existing_noop (db : Db) (sender : Identity)
    (now : Timestamp) (h : ∃ c ∈ db.cursor, c.identity = sender) :
    identity_connected db sender now = db := by
  obtain ⟨c, hc, hcid⟩ := h
  have hfind : (db.cursor.find? (fun c => c.identity == sender)).isSome := by
    simp only [List.find?_isSome]
    exact ⟨c, hc, by simpa using hcid⟩
  simp [identity_connected, hfind]

/-- C8 witness: identity 4 is already connected in the example
database, so a second connect leaves it unchanged. -/
theorem connect_existing_noop_witness :
    identity_connected exDb 4 6 = exDb :=
  connect_existing_noop exDb 4 6
    ⟨{ identity := 4, x := 1, y := 1, color := "#000000", size := 3,
       last_updated := 5 }, by decide, rfl⟩

/-- C9: save only inserts rows.  The live CanvasPoint table and the
Cursor table are unchanged, and the prior CanvasState and
SavedCanvasPoint tables are each a prefix of their new contents. -/
theorem save_frame (db : Db) (sender : Identity) (now : Timestamp)
    (name : String) :
    (save_canvas_state db sender now name).canvas_point =
        db.canvas_point ∧
    (save_canvas_state db sender now name).cursor = db.cursor ∧
    db.canvas_state <+: (save_canvas_state db sender now name).canvas_state ∧
    db.saved_canvas_point <+:
      (save_canvas_state db sender now name).saved_canvas_point :=
  ⟨rfl, rfl,
   ⟨[{ id := db.next_state_id, name := name, created_by := sender,
       created_at := now }], rfl⟩,
   ⟨snapshotPoints db.next_state_id db.next_saved_point_id db.canvas_point,
    rfl⟩⟩

/-- C10: load leaves the CanvasState and SavedCanvasPoint tables
unchanged, and loading the same state id again from the resulting
database restores the same list of position, color, size attributes. -/
theorem load_frame (db : Db) (s1 s2 : Identity) (t1 t2 : Timestamp)
    (sid : Nat) :
    (load_canvas_state db s1 t1 sid).canvas_state = db.canvas_state ∧
    (load_canvas_state db s1 t1 sid).saved_canvas_point =
      db.saved_canvas_point ∧
    (load_canvas_state (load_canvas_state db s1 t1 sid) s2 t2
        sid).canvas_point.map pointAttrs =
      (load_canvas_state db s1 t1 sid).canvas_point.map pointAttrs := by
  cases hfind : db.canvas_state.find? (fun st => st.id == sid) with
  | none =>
    have h1 : load_canvas_state db s1 t1 sid =
        { db with canvas_point := [] } := by
      simp [load_canvas_state, hfind]
    refine ⟨by rw [h1], by rw [h1], ?_⟩
    have h2 : load_canvas_state (load_canvas_state db s1 t1 sid) s2 t2 sid =
        { load_canvas_state db s1 t1 sid with canvas_point := [] } := by
      rw [h1]
      simp [load_canvas_state, hfind]
    rw [h2, h1]
  | some st =>
    have h1 : load_canvas_state db s1 t1 sid =
        { db with
          canvas_point := restorePoints s1 t1 db.next_point_id
            (db.saved_canvas_point.filter (fun p => p.state_id == sid)),
          next_point_id := db.next_point_id +
            (db.saved_canvas_point.filter
              (fun p => p.state_id == sid)).length } := by
      simp [load_canvas_state, hfind]
    have h2 : load_canvas_state (load_canvas_state db s1 t1 sid) s2 t2 sid =
        { load_canvas_state db s1 t1 sid with
          canvas_point := restorePoints s2 t2
            (load_canvas_state db s1 t1 sid).next_point_id
            (db.saved_canvas_point.filter (fun p => p.state_id == sid)),
          next_point_id := (load_canvas_state db s1 t1 sid).next_point_id +
            (db.saved_canvas_point.filter
              (fun p => p.state_id == sid)).length } := by
      rw [h1]
      simp [load_canvas_state, hfind]
    refine ⟨by rw [h1], by rw [h1], ?_⟩
    rw [h2, h1]
    simp [restorePoints_map_attrs]

/-- C1 witness, using the boundary examples of the spec: the point at
(10,10) of size 2 is removed by an eraser of radius 0 at (10,10), the
equality case of the bound, while the point at (13,10) of size 0
survives an eraser of radius 2 at (10,10). -/
theorem erase_points_spec_witness :
    exNearPoint ∉ (erase_points exEraseDb 10 10 0).canvas_point ∧
    exFarPoint ∈ (erase_points exEraseDb 10 10 2).canvas_point :=
  ⟨fun hmem =>
    ((erase_points_spec exEraseDb 10 10 0 exNearPoint).mp hmem).2
      (by norm_num [exNearPoint]),
   (erase_points_spec exEraseDb 10 10 2 exFarPoint).mpr
    ⟨by decide, by norm_num [exFarPoint]⟩⟩

/-- C2: on a well-formed database, saving under any name, clearing,
then loading the state id allocated by the save restores a live point
set whose attribute lists coincide as multisets with the original, every
restored point being owned by the loader, stamped with the load time,
and carrying an id distinct from every id of the original point set. -/
theorem save_clear_load_roundtrip (db : Db) (name : String)
    (saver loader : Identity) (t1 t2 : Timestamp) (hwf : WF db) :
    Multiset.ofList
        ((saveClearLoad db name saver loader t1 t2).canvas_point.map
          pointAttrs) =
      Multiset.ofList (db.canvas_point.map pointAttrs) ∧
    (∀ p ∈ (saveClearLoad db name saver loader t1 t2).canvas_point,
      p.identity = loader ∧ p.timestamp = t2) ∧
    (∀ p ∈ (saveClearLoad db name saver loader t1 t2).canvas_point,
      ∀ q ∈ db.canvas_point, p.id ≠ q.id) := by
  obtain ⟨hwfp, hwfs, hwfsp⟩ := hwf
  have e1 : (clear_canvas (save_canvas_state db saver t1 name)).canvas_state =
      db.canvas_state ++
        [{ id := db.next_state_id, name := name, created_by := saver,
           created_at := t1 }] := rfl
  have e2 :
      (clear_canvas (save_canvas_state db saver t1 name)).saved_canvas_point =
      db.saved_canvas_point ++
        snapshotPoints db.next_state_id db.next_saved_point_id
          db.canvas_point := rfl
  have hfind : (clear_canvas
        (save_canvas_state db saver t1 name)).canvas_state.find?
        (fun st => st.id == db.next_state_id) =
      some { id := db.next_state_id, name := name, created_by := saver,
             created_at := t1 } := by
    rw [e1, List.find?_append]
    have hnone : db.canvas_state.find?
        (fun st => st.id == db.next_state_id) = none := by
      simp only [List.find?_eq_none]
      intro st hst
      have hlt := hwfs st hst
      simp only [beq_iff_eq]
      omega
    rw [hnone]
    simp
  have hfilt : (clear_canvas
        (save_canvas_state db saver t1 name)).saved_canvas_point.filter
        (fun p => p.state_id == db.next_state_id) =
      snapshotPoints db.next_state_id db.next_saved_point_id
        db.canvas_point := by
    rw [e2, List.filter_append]
    have hold : db.saved_canvas_point.filter
        (fun p => p.state_id == db.next_state_id) = [] := by
      simp only [List.filter_eq_nil_iff]
      intro sp hsp
      have hlt := (hwfsp sp hsp).2
      simp only [beq_iff_eq]
      omega
    have hnew : (snapshotPoints db.next_state_id db.next_saved_point_id
        db.canvas_point).filter (fun p => p.state_id == db.next_state_id) =
        snapshotPoints db.next_state_id db.next_saved_point_id
          db.canvas_point := by
      rw [List.filter_eq_self]
      intro sp hsp
      have heq := (mem_snapshotPoints hsp).1
      simp [heq]
    rw [hold, hnew, List.nil_append]
  have hpoints : (saveClearLoad db name saver loader t1 t2).canvas_point =
      restorePoints loader t2 db.next_point_id
        (snapshotPoints db.next_state_id db.next_saved_point_id
          db.canvas_point) := by
    unfold saveClearLoad load_canvas_state
    simp only [hfind, hfilt]
    rfl
  refine ⟨?_, ?_, ?_⟩
  · rw [hpoints, restorePoints_map_attrs, snapshotPoints_map_attrs]
  · intro p hp
    rw [hpoints] at hp
    obtain ⟨hid, hts, _, _⟩ := mem_restorePoints hp
    exact ⟨hid, hts⟩
  · intro p hp q hq
    rw [hpoints] at hp
    obtain ⟨_, _, hge, _⟩ := mem_restorePoints hp
    have hlt := hwfp q hq
    omega

/-- C2 witness: the round trip at the concrete example database, with
identity 4 saving at time 6 and identity 9 loading at time 7, restores
a canvas with the original attribute multiset. -/
theorem save_clear_load_roundtrip_witness :
    Multiset.ofList
        ((saveClearLoad exDb "snap" 4 9 6 7).canvas_point.map pointAttrs) =
      Multiset.ofList (exDb.canvas_point.map pointAttrs) :=
  (save_clear_load_roundtrip exDb "snap" 4 9 6 7
    ⟨by decide, by decide, by decide⟩).1

/-- Step properties shared by all operations that only delete rows or
leave the id-keyed tables alone: well-formedness is preserved, the
allocator counters do not move, and no new row appears. -/
theorem stepProps_of_subset (db db2 : Db)
    (hp : ∀ p ∈ db2.canvas_point, p ∈ db.canvas_point)
    (hs : ∀ st ∈ db2.canvas_state, st ∈ db.canvas_state)
    (hsp : ∀ sp ∈ db2.saved_canvas_point, sp ∈ db.saved_canvas_point)
    (h1 : db2.next_point_id = db.next_point_id)
    (h2 : db2.next_state_id = db.next_state_id)
    (h3 : db2.next_saved_point_id = db.next_saved_point_id)
    (hwf : WF db) :
    WF db2 ∧
    db.next_point_id ≤ db2.next_point_id ∧
    db.next_state_id ≤ db2.next_state_id ∧
    db.next_saved_point_id ≤ db2.next_saved_point_id ∧
    (∀ p ∈ db2.canvas_point, p ∈ db.canvas_point ∨
      db.next_point_id ≤ p.id) ∧
    (∀ st ∈ db2.canvas_state, st ∈ db.canvas_state ∨
      db.next_state_id ≤ st.id) ∧
    (∀ sp ∈ db2.saved_canvas_point, sp ∈ db.saved_canvas_point ∨
      db.next_saved_point_id ≤ sp.id) := by
  obtain ⟨hwfp, hwfs, hwfsp⟩ := hwf
  refine ⟨⟨?_, ?_, ?_⟩, by omega, by omega, by omega,
    fun p hpm => Or.inl (hp p hpm), fun st hstm => Or.inl (hs st hstm),
    fun sp hspm => Or.inl (hsp sp hspm)⟩
  · intro p hpm
    rw [h1]
    exact hwfp p (hp p hpm)
  · intro st hstm
    rw [h2]
    exact hwfs st (hs st hstm)
  · intro sp hspm
    rw [h2, h3]
    exact hwfsp sp (hsp sp hspm)

/-- Every single operation preserves well-formedness, never decreases
an allocator counter, and gives every freshly inserted row an id at
least equal to the counter of its table before the step, i.e. beyond
every id that table's allocator had handed out up to that point. -/
theorem applyOp_props (db : Db) (op : Op) (hwf : WF db) :
    WF (applyOp db op) ∧
    db.next_point_id ≤ (applyOp db op).next_point_id ∧
    db.next_state_id ≤ (applyOp db op).next_state_id ∧
    db.next_saved_point_id ≤ (applyOp db op).next_saved_point_id ∧
    (∀ p ∈ (applyOp db op).canvas_point, p ∈ db.canvas_point ∨
      db.next_point_id ≤ p.id) ∧
    (∀ st ∈ (applyOp db op).canvas_state, st ∈ db.canvas_state ∨
      db.next_state_id ≤ st.id) ∧
    (∀ sp ∈ (applyOp db op).saved_canvas_point,
      sp ∈ db.saved_canvas_point ∨
      db.next_saved_point_id ≤ sp.id) := by
  obtain ⟨hwfp, hwfs, hwfsp⟩ := hwf
  cases op with
  | connect s t =>
    simp only [applyOp]
    unfold identity_connected
    split
    · exact stepProps_of_subset db db (fun _ h => h) (fun _ h => h)
        (fun _ h => h) rfl rfl rfl ⟨hwfp, hwfs, hwfsp⟩
    · exact stepProps_of_subset db _ (fun _ h => h) (fun _ h => h)
        (fun _ h => h) rfl rfl rfl ⟨hwfp, hwfs, hwfsp⟩
  | disconnect s =>
    simp only [applyOp]
    unfold identity_disconnected
    split
    · exact stepProps_of_subset db db (fun _ h => h) (fun _ h => h)
        (fun _ h => h) rfl rfl rfl ⟨hwfp, hwfs, hwfsp⟩
    · exact stepProps_of_subset db _ (fun _ h => h) (fun _ h => h)
        (fun _ h => h) rfl rfl rfl ⟨hwfp, hwfs, hwfsp⟩
  | updateCursor s x y c sz t =>
    simp only [applyOp]
    unfold update_cursor
    split
    · exact stepProps_of_subset db db (fun _ h => h) (fun _ h => h)
        (fun _ h => h) rfl rfl rfl ⟨hwfp, hwfs, hwfsp⟩
    · exact stepProps_of_subset db _ (fun _ h => h) (fun _ h => h)
        (fun _ h => h) rfl rfl rfl ⟨hwfp, hwfs, hwfsp⟩
  | addPoint s x y c sz t =>
    simp only [applyOp]
    unfold add_drawing_point
    refine ⟨⟨?_, hwfs, hwfsp⟩, Nat.le_succ _, Nat.le_refl _, Nat.le_refl _,
      ?_, fun st hst => Or.inl hst, fun sp hsp => Or.inl hsp⟩
    · intro p hpm
      rcases List.mem_append.mp hpm with h | h
      · have := hwfp p h
        show p.id < db.next_point_id + 1
        omega
      · rw [List.mem_singleton.mp h]
        exact Nat.lt_succ_self db.next_point_id
    · intro p hpm
      rcases List.mem_append.mp hpm with h | h
      · exact Or.inl h
      · rw [List.mem_singleton.mp h]
        exact Or.inr (Nat.le_refl db.next_point_id)
  | erasePts x y r =>
    simp only [applyOp]
    unfold erase_points
    exact stepProps_of_subset db _
      (fun p hpm => (List.mem_filter.mp hpm).1) (fun _ h => h)
      (fun _ h => h) rfl rfl rfl ⟨hwfp, hwfs, hwfsp⟩
  | clearAll =>
    simp only [applyOp]
    unfold clear_canvas
    exact stepProps_of_subset db _
      (fun p hpm => absurd hpm (List.not_mem_nil p)) (fun _ h => h)
      (fun _ h => h) rfl rfl rfl ⟨hwfp, hwfs, hwfsp⟩
  | save s t n =>
    simp only [applyOp]
    unfold save_canvas_state
    refine ⟨⟨hwfp, ?_, ?_⟩, Nat.le_refl _, Nat.le_succ _,
      Nat.le_add_right _ _, fun p hpm => Or.inl hpm, ?_, ?_⟩
    · intro st hstm
      rcases List.mem_append.mp hstm with h | h
      · have := hwfs st h
        show st.id < db.next_state_id + 1
        omega
      · rw [List.mem_singleton.mp h]
        exact Nat.lt_succ_self db.next_state_id
    · intro sp hspm
      rcases List.mem_append.mp hspm with h | h
      · obtain ⟨ha, hb⟩ := hwfsp sp h
        refine ⟨?_, ?_⟩
        · show sp.id < db.next_saved_point_id + db.canvas_point.length
          omega
        · show sp.state_id < db.next_state_id + 1
          omega
      · obtain ⟨hsid, hge, hlt⟩ := mem_snapshotPoints h
        have hsid2 : sp.state_id = db.next_state_id := hsid
        refine ⟨?_, ?_⟩
        · show sp.id < db.next_saved_point_id + db.canvas_point.length
          omega
        · show sp.state_id < db.next_state_id + 1
          omega
    · intro st hstm
      rcases List.mem_append.mp hstm with h | h
      · exact Or.inl h
      · rw [List.mem_singleton.mp h]
        exact Or.inr (Nat.le_refl db.next_state_id)
    · intro sp hspm
      rcases List.mem_append.mp hspm with h | h
      · exact Or.inl h
      · obtain ⟨hsid, hge, hlt⟩ := mem_snapshotPoints h
        exact Or.inr hge
  | load s t sid =>
    simp only [applyOp]
    unfold load_canvas_state
    split
    · exact stepProps_of_subset db _
        (fun p hpm => absurd hpm (List.not_mem_nil p)) (fun _ h => h)
        (fun _ h => h) rfl rfl rfl ⟨hwfp, hwfs, hwfsp⟩
    · refine ⟨⟨?_, hwfs, hwfsp⟩, Nat.le_add_right _ _, Nat.le_refl _,
        Nat.le_refl _, ?_, fun st hst => Or.inl hst,
        fun sp hsp => Or.inl hsp⟩
      · intro p hpm
        have hpm2 : p ∈ restorePoints s t db.next_point_id
            (db.saved_canvas_point.filter (fun q => q.state_id == sid)) :=
          hpm
        obtain ⟨_, _, hge, hlt⟩ := mem_restorePoints hpm2
        exact hlt
      · intro p hpm
        have hpm2 : p ∈ restorePoints s t db.next_point_id
            (db.saved_canvas_point.filter (fun q => q.state_id == sid)) :=
          hpm
        obtain ⟨_, _, hge, _⟩ := mem_restorePoints hpm2
        exact Or.inr hge
  | delete s sid =>
    simp only [applyOp]
    unfold delete_canvas_state
    split
    · exact stepProps_of_subset db db (fun _ h => h) (fun _ h => h)
        (fun _ h => h) rfl rfl rfl ⟨hwfp, hwfs, hwfsp⟩
    · split
      · exact stepProps_of_subset db _ (fun _ h => h)
          (fun st hst => List.mem_of_mem_erase hst)
          (fun sp hsp => (List.mem_filter.mp hsp).1) rfl rfl rfl
          ⟨hwfp, hwfs, hwfsp⟩
      · exact stepProps_of_subset db db (fun _ h => h) (fun _ h => h)
          (fun _ h => h) rfl rfl rfl ⟨hwfp, hwfs, hwfsp⟩

/-- Along any sequence of operations from a well-formed database,
well-formedness persists, the allocator counters never decrease, and
every row present at the end is either a row that was already present
at the start or carries an id at least equal to the starting counter of
its table. -/
theorem foldl_applyOp_props (ops : List Op) :
    ∀ db : Db, WF db →
      WF (List.foldl applyOp db ops) ∧
      db.next_point_id ≤ (List.foldl applyOp db ops).next_point_id ∧
      db.next_state_id ≤ (List.foldl applyOp db ops).next_state_id ∧
      db.next_saved_point_id ≤
        (List.foldl applyOp db ops).next_saved_point_id ∧
      (∀ p ∈ (List.foldl applyOp db ops).canvas_point,
        p ∈ db.canvas_point ∨ db.next_point_id ≤ p.id) ∧
      (∀ st ∈ (List.foldl applyOp db ops).canvas_state,
        st ∈ db.canvas_state ∨ db.next_state_id ≤ st.id) ∧
      (∀ sp ∈ (List.foldl applyOp db ops).saved_canvas_point,
        sp ∈ db.saved_canvas_point ∨ db.next_saved_point_id ≤ sp.id) := by
  induction ops with
  | nil =>
    intro db hwf
    exact ⟨hwf, Nat.le_refl _, Nat.le_refl _, Nat.le_refl _,
      fun p hp => Or.inl hp, fun st hst => Or.inl hst,
      fun sp hsp => Or.inl hsp⟩
  | cons o os ih =>
    intro db hwf
    simp only [List.foldl_cons]
    obtain ⟨hwf1, hm1, hm2, hm3, hf1, hf2, hf3⟩ := applyOp_props db o hwf
    obtain ⟨hwf2, hn1, hn2, hn3, hg1, hg2, hg3⟩ := ih (applyOp db o) hwf1
    refine ⟨hwf2, by omega, by omega, by omega, ?_, ?_, ?_⟩
    · intro p hp
      rcases hg1 p hp with h | h
      · rcases hf1 p h with h2 | h2
        · exact Or.inl h2
        · exact Or.inr h2
      · exact Or.inr (by omega)
    · intro st hst
      rcases hg2 st hst with h | h
      · rcases hf2 st h with h2 | h2
        · exact Or.inl h2
        · exact Or.inr h2
      · exact Or.inr (by omega)
    · intro sp hsp
      rcases hg3 sp hsp with h | h
      · rcases hf3 sp h with h2 | h2
        · exact Or.inl h2
        · exact Or.inr h2
      · exact Or.inr (by omega)

/-- C5: starting from any well-formed database, after any sequence of
operations the database is still well formed, no per-table allocator
counter has decreased, and every CanvasPoint, CanvasState or
SavedCanvasPoint row now present either already existed at the start or
carries an id at least equal to the starting allocator counter of its
table, hence strictly greater than every id that table had allocated up
to the starting state, deleted rows included.  Instantiated at each
intermediate state of a run this gives strictly increasing ids that are
never reused across arbitrarily many create and delete cycles. -/
theorem ids_strictly_increasing_never_reused (db : Db) (ops : List Op)
    (hwf : WF db) :
    WF (List.foldl applyOp db ops) ∧
    db.next_point_id ≤ (List.foldl applyOp db ops).next_point_id ∧
    db.next_state_id ≤ (List.foldl applyOp db ops).next_state_id ∧
    db.next_saved_point_id ≤
      (List.foldl applyOp db ops).next_saved_point_id ∧
    (∀ p ∈ (List.foldl applyOp db ops).canvas_point,
      p ∈ db.canvas_point ∨
        (db.next_point_id ≤ p.id ∧ ∀ q ∈ db.canvas_point, q.id < p.id)) ∧
    (∀ st ∈ (List.foldl applyOp db ops).canvas_state,
      st ∈ db.canvas_state ∨
        (db.next_state_id ≤ st.id ∧
          ∀ q ∈ db.canvas_state, q.id < st.id)) ∧
    (∀ sp ∈ (List.foldl applyOp db ops).saved_canvas_point,
      sp ∈ db.saved_canvas_point ∨
        (db.next_saved_point_id ≤ sp.id ∧
          ∀ q ∈ db.saved_canvas_point, q.id < sp.id)) := by
  obtain ⟨hwfp, hwfs, hwfsp⟩ := hwf
  obtain ⟨h1, h2, h3, h4, h5, h6, h7⟩ :=
    foldl_applyOp_props ops db ⟨hwfp, hwfs, hwfsp⟩
  refine ⟨h1, h2, h3, h4, ?_, ?_, ?_⟩
  · intro p hp
    rcases h5 p hp with h | h
    · exact Or.inl h
    · refine Or.inr ⟨h, fun q hq => ?_⟩
      have := hwfp q hq
      omega
  · intro st hst
    rcases h6 st hst with h | h
    · exact Or.inl h
    · refine Or.inr ⟨h, fun q hq => ?_⟩
      have := hwfs q hq
      omega
  · intro sp hsp
    rcases h7 sp hsp with h | h
    · exact Or.inl h
    · refine Or.inr ⟨h, fun q hq => ?_⟩
      have := (hwfsp q hq).1
      omega

/-- C5 witness: a create, delete, create cycle on the example database
(draw a point, clear the canvas, draw again) keeps the database well
formed and never decreases the CanvasPoint allocator counter. -/
theorem ids_strictly_increasing_never_reused_witness :
    WF (List.foldl applyOp exDb
      [Op.addPoint 4 1 1 "#000000" 2 6, Op.clearAll,
       Op.addPoint 4 2 2 "#0000ff" 2 7]) ∧
    exDb.next_point_id ≤
      (List.foldl applyOp exDb
        [Op.addPoint 4 1 1 "#000000" 2 6, Op.clearAll,
         Op.addPoint 4 2 2 "#0000ff" 2 7]).next_point_id :=
  ⟨(ids_strictly_increasing_never_reused exDb
      [Op.addPoint 4 1 1 "#000000" 2 6, Op.clearAll,
       Op.addPoint 4 2 2 "#0000ff" 2 7]
      ⟨by decide, by decide, by decide⟩).1,
   (ids_strictly_increasing_never_reused exDb
      [Op.addPoint 4 1 1 "#000000" 2 6, Op.clearAll,
       Op.addPoint 4 2 2 "#0000ff" 2 7]
      ⟨by decide, by decide, by decide⟩).2.1⟩

end DrawIo
